import Mathlib

/-!
Shallow embedding of the `indie-finder` dog-detection proxy
(`src/dog-detection-nest`): a NestJS controller and service that accept a
base64 data-URL image over HTTP, forward it to the Roboflow vendor API with
a bounded retry loop, and normalize the vendor response into a list of
detected dogs.

Conventions of the embedding:
- JS numbers appearing in the data path (confidences, bounding-box
  coordinates) are modelled as `Rat`; byte values as `Nat` below 256.
- JS string truthiness (`if (s)`) is `s ≠ ""`; optional-chaining access to a
  possibly-missing string field is `Option String` with truthiness
  `o.getD "" ≠ ""`.
- Effects (HTTP requests, backoff delays, filesystem writes of the debug
  logger) are recorded in an explicit trace `List Effect`.
- The outcome of each axios call is an oracle `Nat → AxiosOutcome` indexed
  by the attempt number; since the service configures
  `validateStatus: () => true`, every HTTP response that arrives resolves
  the promise (with its status), and only request-level failures
  (timeout, connection error) reject, carrying no `response` object.
-/

namespace DogDetection

/-- JS `a || b` for numbers (no NaN in the model): `0` is falsy. -/
def jsOrRat (a b : Rat) : Rat := if a = 0 then b else a

/-- Truthiness of an optionally-present JS string field: present and non-empty. -/
def truthyOpt (o : Option String) : Bool := o.getD "" ≠ ""

/-! ## Base64 (Node `Buffer`)

`Buffer.from(data, 'base64')` (controller, line 36) and
`buffer.toString('base64')` (service, line 56). Node's decoder is
forgiving: characters outside the base64 alphabet (including padding `=`)
are skipped, and a trailing group of 2 or 3 sextets still yields 1 or 2
bytes. The encoder produces canonical padded base64. -/

/-- The standard base64 alphabet, as indexed by Node's encoder. -/
def b64alphabet : List Char :=
  "ABCDEFGHIJKLMNOPQRSTUVWXYZabcdefghijklmnopqrstuvwxyz0123456789+/".toList

/-- Character for a sextet value (`b64alphabet[n]`). -/
def sextetChar (n : Nat) : Char := b64alphabet.getD n 'A'

/-- Sextet value of a character: `none` for characters outside the alphabet
(Node's decoder skips those). -/
def sextetOf (c : Char) : Option Nat :=
  let i := b64alphabet.indexOf c
  if i < b64alphabet.length then some i else none

/-- Node base64 encoding of a byte list, as a character list. -/
def b64encodeL : List Nat → List Char
  | [] => []
  | [b1] => [sextetChar (b1 / 4), sextetChar (b1 % 4 * 16), '=', '=']
  | [b1, b2] =>
      [sextetChar (b1 / 4), sextetChar (b1 % 4 * 16 + b2 / 16),
       sextetChar (b2 % 16 * 4), '=']
  | b1 :: b2 :: b3 :: rest =>
      sextetChar (b1 / 4) :: sextetChar (b1 % 4 * 16 + b2 / 16) ::
      sextetChar (b2 % 16 * 4 + b3 / 64) :: sextetChar (b3 % 64) ::
      b64encodeL rest

/-- `buffer.toString('base64')`. -/
def b64encode (bs : List Nat) : String := String.mk (b64encodeL bs)

/-- Reassemble bytes from a sextet stream: full groups of four sextets give
three bytes; a trailing pair gives one byte, a trailing triple two. -/
def sextetsToBytes : List Nat → List Nat
  | s1 :: s2 :: s3 :: s4 :: rest =>
      (s1 * 4 + s2 / 16) :: (s2 % 16 * 16 + s3 / 4) :: (s3 % 4 * 64 + s4) ::
      sextetsToBytes rest
  | [s1, s2, s3] => [s1 * 4 + s2 / 16, s2 % 16 * 16 + s3 / 4]
  | [s1, s2] => [s1 * 4 + s2 / 16]
  | _ => []

/-- `Buffer.from(s, 'base64')`: skip non-alphabet characters, then group. -/
def b64decode (s : String) : List Nat :=
  sextetsToBytes (s.toList.filterMap sextetOf)

/-! ## Data model (`dog-detection.types.ts`) -/

/-- `BoundingBox` of `dog-detection.types.ts`. -/
structure BoundingBox where
  x : Rat
  y : Rat
  width : Rat
  height : Rat
deriving DecidableEq, Repr

/-- `DetectedDog` of `dog-detection.types.ts` (`id` and `timestamp` are
optional there but always set by `extractDogImages`). -/
structure DetectedDog where
  id : String
  confidence : Rat
  bbox : BoundingBox
  imageData : Option String
  timestamp : String
deriving DecidableEq, Repr

/-- `DetectionResult` of `dog-detection.types.ts`; `debugInfo` carries no
behaviour and is omitted. -/
structure DetectionResult where
  success : Bool
  detectedDogs : List DetectedDog
  error : Option String
deriving DecidableEq, Repr

/-- One entry of an `output.dynamic_crop` array of the vendor response:
`extractDogImages` reads `crop.type`, `crop.value` and
`crop.video_metadata?.frame_timestamp`. -/
structure CropEntry where
  type : String
  value : Option String
  frameTimestamp : Option String
deriving DecidableEq, Repr

/-- One entry of the vendor `outputs` array: `extractDogImages` only reads
its `dynamic_crop` field (`none` models a missing or non-array field). -/
structure OutputEntry where
  dynamicCrop : Option (List CropEntry)
deriving DecidableEq, Repr

/-- `RoboflowPrediction` of `dog-detection.types.ts`, with the three
possible image locations flattened to the string fields the code reads:
`crop?.image`, `crops?.[0]?.image`, `image`. -/
structure RoboflowPrediction where
  «class» : String
  confidence : Rat
  x : Rat
  y : Rat
  width : Rat
  height : Rat
  cropImage : Option String
  cropsImages : List (Option String)
  image : Option String
deriving DecidableEq, Repr

/-- `RoboflowResponse`: the two fields `extractDogImages` consumes
(`none` models a missing or non-array field). -/
structure RoboflowResponse where
  outputs : Option (List OutputEntry)
  predictions : Option (List RoboflowPrediction)
deriving DecidableEq, Repr

/-! ## Controller input validation (`dog-detection.controller.ts`)

The regex `/^data:image\/([a-zA-Z]*);base64,([^\"]*)$/` of line 24:
a literal `data:image/`, a (possibly empty) run of ASCII letters, a
literal `;base64,`, then any characters other than `"` up to the end.
Because the letter class cannot match `;`, the match is deterministic. -/

/-- ASCII letter, the `[a-zA-Z]` class. -/
def isAsciiLetter (c : Char) : Bool :=
  ('a' ≤ c && c ≤ 'z') || ('A' ≤ c && c ≤ 'Z')

/-- Split off the maximal leading run of ASCII letters (`([a-zA-Z]*)`). -/
def takeLetters : List Char → List Char × List Char
  | [] => ([], [])
  | c :: cs =>
      if isAsciiLetter c then
        let p := takeLetters cs
        (c :: p.1, p.2)
      else ([], c :: cs)

/-- Match a literal at the head of the input, returning the remainder. -/
def dropLit : List Char → List Char → Option (List Char)
  | [], s => some s
  | _ :: _, [] => none
  | c :: cs, d :: ds => if c = d then dropLit cs ds else none

/-- `image.match(base64Regex)` of controller line 25: on success, the two
capture groups (mime letters, base64 data). -/
def matchDataUrl (s : String) : Option (String × String) :=
  match dropLit "data:image/".toList s.toList with
  | none => none
  | some r1 =>
      let p := takeLetters r1
      match dropLit ";base64,".toList p.2 with
      | none => none
      | some data =>
          if data.all (fun c => c ≠ '"') then
            some (String.mk p.1, String.mk data)
          else none

/-! ## Service state and effects (`dog-detection.service.ts`) -/

/-- The two fields of `DogDetectionService`, both `readonly` and assigned
only in the constructor (lines 17-23). -/
structure ServiceState where
  debug : Bool
  logsDir : String
deriving DecidableEq, Repr

/-- The constructor (lines 20-23): `configService.get('debug', false)` and
`path.join(process.cwd(), 'logs')`. -/
def mkService (cfgDebug : Option Bool) (cwd : String) : ServiceState :=
  { debug := cfgDebug.getD false, logsDir := cwd ++ "/logs" }

/-- One axios POST, as configured at lines 81-102. -/
structure HttpRequest where
  url : String
  body : String
  timeoutMs : Nat
deriving DecidableEq, Repr

/-- Observable side effects of a request's lifetime: vendor API calls,
backoff sleeps, and the debug logger's filesystem operations. -/
inductive Effect where
  | request (attempt : Nat) (req : HttpRequest)
  | delay (ms : Nat)
  | fsMkdir (dir : String)
  | fsAppend (file : String)
deriving DecidableEq, Repr

/-- `debugLog` (lines 30-46): when `debug` is off it returns at once;
otherwise it creates the logs directory and appends to
`roboflow-debug.log`. -/
def debugLog (st : ServiceState) : List Effect :=
  if st.debug then
    [.fsMkdir st.logsDir, .fsAppend (st.logsDir ++ "/roboflow-debug.log")]
  else []

/-- Outcome of one axios call. With `validateStatus: () => true`
(line 100) every HTTP response that arrives resolves the promise with its
status; the promise rejects only on request-level failures (timeout,
connection error), which carry no `response` object. -/
inductive AxiosOutcome where
  | resolved (status : Nat) (data : RoboflowResponse)
  | requestFailed (message : String)
deriving Repr

/-- The `response` object of an axios error, as read at lines 152 and 163
(`error.response?.status`, `error.response?.data?.message`). -/
structure ErrResponse where
  status : Nat
  dataMessage : Option String
deriving DecidableEq, Repr

/-- An error thrown inside the service: its `message` and its optional
`response` object. -/
structure ServiceError where
  message : String
  response : Option ErrResponse
deriving DecidableEq, Repr

/-- `makeRequest` (lines 78-141): posts the body with a 60000 ms timeout;
if the (always-resolved) response has status ≥ 400 it throws a plain
`Error` — which has no `response` property — and a request-level axios
failure also carries no `response`. Returns the outcome and the trace. -/
def makeRequest (st : ServiceState) (apiUrl dataUrl : String)
    (oracle : Nat → AxiosOutcome) (attempt : Nat) :
    Except ServiceError RoboflowResponse × List Effect :=
  let req : HttpRequest := { url := apiUrl, body := dataUrl, timeoutMs := 60000 }
  match oracle attempt with
  | .resolved status data =>
      if 400 ≤ status then
        (.error { message := "HTTP " ++ toString status, response := none },
         [.request attempt req] ++ debugLog st)
      else
        (.ok data, [.request attempt req] ++ debugLog st)
  | .requestFailed msg =>
      (.error { message := msg, response := none },
       [.request attempt req] ++ debugLog st)

/-- The no-retry test of line 152:
`error.response?.status >= 400 && < 500 && !== 429`. -/
def shouldAbortRetry (e : ServiceError) : Bool :=
  match e.response with
  | some r => decide (400 ≤ r.status ∧ r.status < 500 ∧ r.status ≠ 429)
  | none => false

/-- The error thrown after the loop (lines 163-167):
`lastError?.response?.data?.message || lastError?.message || default`,
wrapped in `Roboflow API Error: `. -/
def finalError (lastError : Option ServiceError) : ServiceError :=
  let inner :=
    match lastError with
    | some e =>
        match e.response with
        | some r =>
            match r.dataMessage with
            | some m => if m ≠ "" then m else e.message
            | none => e.message
        | none => e.message
    | none => "Failed to process image with Roboflow after multiple attempts"
  { message := "Roboflow API Error: " ++ inner, response := none }

/-- The retry `for` loop (lines 143-160), unrolled from a given attempt
number with the remaining number of iterations as fuel: try the request;
on success return; on a 4xx (non-429) `response` status stop retrying;
otherwise sleep `initialDelayMs * 2^(attempt-1)` and continue. -/
def retryFrom (st : ServiceState) (apiUrl dataUrl : String)
    (oracle : Nat → AxiosOutcome) (initialDelayMs : Nat) :
    Nat → Nat → Option ServiceError →
    Except ServiceError RoboflowResponse × List Effect
  | _, 0, lastError => (.error (finalError lastError), [])
  | attempt, remaining + 1, _ =>
      match makeRequest st apiUrl dataUrl oracle attempt with
      | (.ok data, tr) => (.ok data, tr)
      | (.error e, tr) =>
          if shouldAbortRetry e then
            (.error (finalError (some e)), tr)
          else
            let d := initialDelayMs * 2 ^ (attempt - 1)
            let rest := retryFrom st apiUrl dataUrl oracle initialDelayMs
              (attempt + 1) remaining (some e)
            (rest.1, tr ++ [.delay d] ++ rest.2)

/-- `processWithRoboflow` (lines 54-168): base64-encode the buffer, build
the data URL, then run the retry loop from attempt 1. The initial
`debugLog` of line 64 opens the trace. -/
def processWithRoboflow (st : ServiceState) (apiUrl : String)
    (oracle : Nat → AxiosOutcome) (imageBuffer : List Nat) (mimetype : String)
    (retryCount initialDelayMs : Nat) :
    Except ServiceError RoboflowResponse × List Effect :=
  let base64Image := b64encode imageBuffer
  let dataUrl := "data:" ++ mimetype ++ ";base64," ++ base64Image
  let r := retryFrom st apiUrl dataUrl oracle initialDelayMs 1 retryCount none
  (r.1, debugLog st ++ r.2)

/-! ## Response normalization (`extractDogImages`, lines 175-278)

The imperative loops push onto `dogs`; `dogs.length` at push time is the
index of the dog in the final list, so each loop is a filter followed by an
index-aware map. `Date.now()` and `new Date().toISOString()` are passed in
as `nowMs` and `ts`. -/

/-- The crops of all `outputs` entries, in order (lines 184-187): entries
whose `dynamic_crop` is missing or not an array contribute nothing. -/
def cropsOf (r : RoboflowResponse) : List CropEntry :=
  match r.outputs with
  | none => []
  | some outs => outs.flatMap (fun o => o.dynamicCrop.getD [])

/-- The guard of line 189: `crop.type === 'base64' && crop.value`. -/
def keepCrop (c : CropEntry) : Bool :=
  c.type == "base64" && truthyOpt c.value

/-- The dog built from a kept crop (lines 190-201): default confidence 1.0
and a zero bounding box, since the crop provides neither. -/
def mkCropDog (nowMs : Nat) (ts : String) (idx : Nat) (c : CropEntry) :
    DetectedDog :=
  { id := "dog-" ++ toString nowMs ++ "-" ++ toString idx
    confidence := 1
    bbox := { x := 0, y := 0, width := 0, height := 0 }
    imageData := c.value
    timestamp := (c.frameTimestamp.filter (fun s => s ≠ "")).getD ts }

/-- The crop loop of lines 184-213. -/
def dogsFromCrops (nowMs : Nat) (ts : String) (r : RoboflowResponse) :
    List DetectedDog :=
  (((cropsOf r).filter keepCrop).enum).map fun p => mkCropDog nowMs ts p.1 p.2

/-- `String.prototype.toLowerCase()`, character by character (the class
names compared here are ASCII). -/
def jsToLower (s : String) : String := String.mk (s.data.map Char.toLower)

/-- The prediction filter of lines 220-225:
`pred.class && pred.class.toLowerCase() === 'dog' && pred.confidence > 0.5`. -/
def keepPrediction (p : RoboflowPrediction) : Bool :=
  p.«class» ≠ "" && jsToLower p.«class» == "dog" && p.confidence > 1/2

/-- The image-data probe of lines 231-240: `detection.crop?.image`, then
`detection.crops?.[0]?.image`, then `detection.image`; `null` if none is
truthy. -/
def predImageData (p : RoboflowPrediction) : Option String :=
  if truthyOpt p.cropImage then p.cropImage
  else if truthyOpt (p.cropsImages.headD none) then p.cropsImages.headD none
  else if truthyOpt p.image then p.image
  else none

/-- The dog built from a kept prediction with truthy image data
(lines 242-255): `detection.confidence || 1.0` and `x || 0` etc. -/
def mkPredDog (nowMs : Nat) (ts : String) (idx : Nat)
    (p : RoboflowPrediction) (img : String) : DetectedDog :=
  { id := "dog-" ++ toString nowMs ++ "-" ++ toString idx
    confidence := jsOrRat p.confidence 1
    bbox := { x := jsOrRat p.x 0, y := jsOrRat p.y 0,
              width := jsOrRat p.width 0, height := jsOrRat p.height 0 }
    imageData := some img
    timestamp := ts }

/-- The body of the fallback loop for one kept prediction (lines 228-264):
re-test the probed image data for truthiness and pair it with the
prediction, or skip the prediction. -/
def probePair (p : RoboflowPrediction) :
    Option (RoboflowPrediction × String) :=
  ((predImageData p).filter (fun s => s ≠ "")).map (fun img => (p, img))

/-- The predictions fallback loop of lines 216-265: filter for dog
detections, keep those whose image-data probe is truthy. -/
def dogsFromPredictions (nowMs : Nat) (ts : String) (r : RoboflowResponse) :
    List DetectedDog :=
  match r.predictions with
  | none => []
  | some preds =>
      ((preds.filter keepPrediction).filterMap probePair).enum.map
        fun q => mkPredDog nowMs ts q.1 q.2.1 q.2.2

/-- `extractDogImages` (lines 175-278): crops first; predictions only when
the crop pass produced zero dogs (line 216). -/
def extractDogImages (nowMs : Nat) (ts : String) (r : RoboflowResponse) :
    List DetectedDog :=
  let dogs := dogsFromCrops nowMs ts r
  if dogs.length = 0 then dogsFromPredictions nowMs ts r else dogs

/-- The filesystem trace of `extractDogImages`: the response log of
line 181, the fallback log of line 217 when taken, and the results are
returned by the pure extraction above. -/
def extractDogImagesTrace (st : ServiceState) (nowMs : Nat) (ts : String)
    (r : RoboflowResponse) : List Effect :=
  debugLog st ++
    (if (dogsFromCrops nowMs ts r).length = 0 ∧ (r.predictions).isSome
     then debugLog st else [])

/-! ## `detectDogs` (service, lines 285-326) and the controller -/

/-- The file object the controller hands to the service. -/
structure FileObj where
  buffer : List Nat
  mimetype : String
deriving DecidableEq, Repr

/-- `detectDogs` of the service (lines 285-326): process with Roboflow
(default `retryCount = 3`, `initialDelayMs = 1000`), extract dogs, return
`success: true`; any thrown error is caught and turned into a
`success: false` result with empty `detectedDogs` and an error message.
The `readonly` fields are never assigned, so the state comes back
unchanged. -/
def detectDogsService (st : ServiceState) (apiUrl : String)
    (oracle : Nat → AxiosOutcome) (nowMs : Nat) (ts : String)
    (file : FileObj) : DetectionResult × List Effect × ServiceState :=
  let r := processWithRoboflow st apiUrl oracle file.buffer file.mimetype 3 1000
  match r.1 with
  | .ok resp =>
      let dogs := extractDogImages nowMs ts resp
      ({ success := true, detectedDogs := dogs, error := none },
       r.2 ++ extractDogImagesTrace st nowMs ts resp ++ debugLog st, st)
  | .error e =>
      ({ success := false, detectedDogs := [],
         error := some ("Failed to detect dogs: " ++ e.message) },
       r.2 ++ debugLog st, st)

/-- The HTTP response of the `detect-dogs` endpoint: a JSON body or a
`BadRequestException` (HTTP 400). -/
inductive ControllerResponse where
  | ok (result : DetectionResult)
  | badRequest (message : String)
deriving DecidableEq, Repr

/-- The request body `DetectDogsDto`; `none` models an absent `image`
field. -/
structure DetectDogsDto where
  image : Option String
deriving DecidableEq, Repr

/-- The controller's `detectDogs` handler (controller lines 14-52):
400 when `image` is falsy, 400 when the data-URL regex does not match;
otherwise base64-decode the payload and delegate to the service. The
service never throws, so the surrounding `catch` (lines 46-51) never
produces a 400 for a matching image. -/
def controllerDetectDogs (st : ServiceState) (apiUrl : String)
    (oracle : Nat → AxiosOutcome) (nowMs : Nat) (ts : String)
    (body : DetectDogsDto) :
    ControllerResponse × List Effect × ServiceState :=
  match body.image with
  | none => (.badRequest "No image data provided", [], st)
  | some img =>
      if img = "" then (.badRequest "No image data provided", [], st)
      else
        match matchDataUrl img with
        | none =>
            (.badRequest
              "Invalid image format. Please provide a valid base64 encoded image.",
             [], st)
        | some (mimeType, base64Data) =>
            let file : FileObj :=
              { buffer := b64decode base64Data,
                mimetype := "image/" ++ mimeType }
            let r := detectDogsService st apiUrl oracle nowMs ts file
            (.ok r.1, r.2.1, r.2.2)

/-! ## Trace observations -/

/-- Attempt numbers of the vendor API calls in a trace, in order. -/
def requestAttempts (t : List Effect) : List Nat :=
  t.filterMap fun e => match e with | .request a _ => some a | _ => none

/-- The request records of the vendor API calls in a trace, in order. -/
def requestRecords (t : List Effect) : List HttpRequest :=
  t.filterMap fun e => match e with | .request _ r => some r | _ => none

/-- The backoff sleeps of a trace, in order. -/
def backoffDelays (t : List Effect) : List Nat :=
  t.filterMap fun e => match e with | .delay d => some d | _ => none

/-- The filesystem operations of a trace, in order. -/
def fsOps (t : List Effect) : List Effect :=
  t.filter fun e =>
    match e with | .fsMkdir _ => true | .fsAppend _ => true | _ => false

/-! ## Spec-side predicates (for refinement claims)

These follow the words of the specification claims, to be compared with
the definitions translated from the source above. -/

/-- Following the claim's words (C2): the image string matches the base64
data-URL pattern `data:image/<letters>;base64,<data>` (where `<letters>`
is the regex class `[a-zA-Z]*` and `<data>` any characters the pattern
accepts, i.e. none of them a `"`). -/
def WellFormedImage (img : String) : Prop :=
  ∃ mime data : String,
    img = "data:image/" ++ mime ++ ";base64," ++ data ∧
    mime.toList.all isAsciiLetter ∧ data.toList.all (fun c => c ≠ '"')

/-- Following the claim's words (C3): the vendor API call fails on an
attempt — either no response arrives (timeout, network error) or the
response carries an HTTP error status. -/
def attemptFails (o : AxiosOutcome) : Prop :=
  match o with
  | .resolved s _ => 400 ≤ s
  | .requestFailed _ => True

/-- Following the claim's words (C9): a prediction is included in the
fallback exactly when its class equals "dog" case-insensitively, its
confidence is strictly greater than 0.5, and it carries image data. -/
def claimKeepPrediction (p : RoboflowPrediction) : Bool :=
  jsToLower p.«class» == "dog" && p.confidence > 1/2 && (predImageData p).isSome

/-! ## Concrete fixtures for witnesses and counterexamples -/

/-- A service state with debug logging off. -/
def stTest : ServiceState := mkService (some false) "/app"

/-- A service state with debug logging on. -/
def stDebug : ServiceState := mkService (some true) "/app"

/-- An oracle under which every attempt fails at the request level
(e.g. a timeout). -/
def oracleFail : Nat → AxiosOutcome := fun _ => .requestFailed "boom"

/-- The request record produced by forwarding an empty image buffer with
mimetype `image/png` to vendor URL `u`. -/
def reqTest : HttpRequest :=
  { url := "u", body := "data:image/png;base64,", timeoutMs := 60000 }

/-- An oracle under which every attempt is answered with HTTP 404. -/
def oracle404 : Nat → AxiosOutcome :=
  fun _ => .resolved 404 { outputs := none, predictions := none }

/-- A single base64 dynamic crop, as a fixture. -/
def cropFixture : CropEntry :=
  { type := "base64", value := some "IMG", frameTimestamp := none }

/-- A vendor response with one base64 dynamic crop and an empty
predictions array. -/
def cropOnlyResponse : RoboflowResponse :=
  { outputs := some [{ dynamicCrop := some [cropFixture] }],
    predictions := some [] }

/-- An oracle under which the first attempt succeeds with
`cropOnlyResponse`. -/
def oracleCropOnly : Nat → AxiosOutcome :=
  fun _ => .resolved 200 cropOnlyResponse

/-- A confident dog prediction carrying image data, as a fixture. -/
def predFixture : RoboflowPrediction :=
  { «class» := "Dog", confidence := 9/10, x := 10, y := 20,
    width := 30, height := 40, cropImage := some "PIMG",
    cropsImages := [], image := none }

/-- A vendor response with no crops and a single confident dog
prediction carrying image data. -/
def predOnlyResponse : RoboflowResponse :=
  { outputs := none, predictions := some [predFixture] }

/-! ## Helper lemmas about traces -/

theorem requestAttempts_append (a b : List Effect) :
    requestAttempts (a ++ b) = requestAttempts a ++ requestAttempts b :=
  List.filterMap_append a b _

theorem requestRecords_append (a b : List Effect) :
    requestRecords (a ++ b) = requestRecords a ++ requestRecords b :=
  List.filterMap_append a b _

theorem backoffDelays_append (a b : List Effect) :
    backoffDelays (a ++ b) = backoffDelays a ++ backoffDelays b :=
  List.filterMap_append a b _

theorem fsOps_append (a b : List Effect) :
    fsOps (a ++ b) = fsOps a ++ fsOps b :=
  List.filter_append a b

theorem requestAttempts_debugLog (st : ServiceState) :
    requestAttempts (debugLog st) = [] := by
  unfold debugLog; split <;> rfl

theorem requestRecords_debugLog (st : ServiceState) :
    requestRecords (debugLog st) = [] := by
  unfold debugLog; split <;> rfl

theorem backoffDelays_debugLog (st : ServiceState) :
    backoffDelays (debugLog st) = [] := by
  unfold debugLog; split <;> rfl

theorem debugLog_off (st : ServiceState) (h : st.debug = false) :
    debugLog st = [] := by
  unfold debugLog; rw [h]; rfl

theorem makeRequest_trace (st : ServiceState) (apiUrl dataUrl : String)
    (oracle : Nat → AxiosOutcome) (attempt : Nat) :
    (makeRequest st apiUrl dataUrl oracle attempt).2 =
      Effect.request attempt ⟨apiUrl, dataUrl, 60000⟩ :: debugLog st := by
  unfold makeRequest
  cases oracle attempt with
  | resolved status data => dsimp only; split <;> rfl
  | requestFailed msg => rfl

theorem makeRequest_error_response (st : ServiceState) (apiUrl dataUrl : String)
    (oracle : Nat → AxiosOutcome) (attempt : Nat) (e : ServiceError)
    (h : (makeRequest st apiUrl dataUrl oracle attempt).1 = .error e) :
    e.response = none := by
  unfold makeRequest at h
  cases ho : oracle attempt with
  | resolved status data =>
      rw [ho] at h; dsimp only at h
      split at h
      · injection h with h'; rw [← h']
      · exact Except.noConfusion h
  | requestFailed msg =>
      rw [ho] at h; dsimp only at h
      injection h with h'; rw [← h']

theorem shouldAbortRetry_of_none (e : ServiceError) (h : e.response = none) :
    shouldAbortRetry e = false := by
  unfold shouldAbortRetry; rw [h]

theorem debugLog_fs (st : ServiceState) :
    ∀ e ∈ debugLog st, e = Effect.fsMkdir st.logsDir ∨
      e = Effect.fsAppend (st.logsDir ++ "/roboflow-debug.log") := by
  unfold debugLog
  split
  · intro e he
    simp only [List.mem_cons, List.mem_singleton] at he
    rcases he with h | h | h
    · exact Or.inl h
    · exact Or.inr h
    · cases h
  · intro e he
    cases he

/-- Shape of the retry loop's trace from a given attempt number: for some
`j` requests (at most the remaining fuel) the attempts are consecutive, and
the delays — one after each failed attempt, possibly absent after the last
request — follow the exponential-backoff formula. -/
theorem retryFrom_shape (st : ServiceState) (apiUrl dataUrl : String)
    (oracle : Nat → AxiosOutcome) (init : Nat) :
    ∀ (remaining attempt : Nat) (le : Option ServiceError),
      ∃ j d, j ≤ remaining ∧ (d = j ∨ d + 1 = j) ∧
        requestAttempts
            (retryFrom st apiUrl dataUrl oracle init attempt remaining le).2 =
          List.range' attempt j ∧
        backoffDelays
            (retryFrom st apiUrl dataUrl oracle init attempt remaining le).2 =
          (List.range' attempt d).map (fun i => init * 2 ^ (i - 1)) := by
  intro remaining
  induction remaining with
  | zero =>
      intro attempt le
      exact ⟨0, 0, Nat.le_refl 0, Or.inl rfl, rfl, rfl⟩
  | succ n ih =>
      intro attempt le
      rcases hmk : makeRequest st apiUrl dataUrl oracle attempt with ⟨res, tr⟩
      have htr : tr = Effect.request attempt ⟨apiUrl, dataUrl, 60000⟩ ::
          debugLog st := by
        have h := makeRequest_trace st apiUrl dataUrl oracle attempt
        rw [hmk] at h; exact h
      cases res with
      | ok data =>
          refine ⟨1, 0, Nat.one_le_iff_ne_zero.mpr (Nat.succ_ne_zero n),
            Or.inr rfl, ?_, ?_⟩ <;>
          · simp [retryFrom, hmk, htr, requestAttempts, backoffDelays,
              List.filterMap_cons, List.range'_succ]
            try (intro a ha;
                 rcases debugLog_fs st a ha with h | h <;> subst h <;> rfl)
      | error e =>
          have hresp : e.response = none := by
            apply makeRequest_error_response st apiUrl dataUrl oracle attempt
            rw [hmk]
          have habort := shouldAbortRetry_of_none e hresp
          obtain ⟨j, d, hj, hd, hreq, hdel⟩ := ih (attempt + 1) (some e)
          refine ⟨j + 1, d + 1, Nat.succ_le_succ hj, ?_, ?_, ?_⟩
          · omega
          · simp [retryFrom, hmk, habort, htr, requestAttempts_append,
              requestAttempts, List.filterMap_cons,
              requestAttempts_debugLog, List.range'_succ]
            have h1 : List.filterMap
                (fun e => match e with | .request a _ => some a | _ => none)
                (debugLog st) = [] := requestAttempts_debugLog st
            rw [h1]
            simpa [requestAttempts] using hreq
          · simp [retryFrom, hmk, habort, htr, backoffDelays_append,
              backoffDelays, List.filterMap_cons,
              backoffDelays_debugLog, List.range'_succ]
            have h1 : List.filterMap
                (fun e => match e with | .delay d => some d | _ => none)
                (debugLog st) = [] := backoffDelays_debugLog st
            rw [h1]
            simpa [backoffDelays] using hdel

/-- Trace shape of `processWithRoboflow`: attempts are `1, 2, ..., j` for
some `j ≤ retryCount`, with backoff delays following the formula. -/
theorem processWithRoboflow_shape (st : ServiceState) (apiUrl : String)
    (oracle : Nat → AxiosOutcome) (buf : List Nat) (mime : String)
    (rc init : Nat) :
    ∃ j d, j ≤ rc ∧ (d = j ∨ d + 1 = j) ∧
      requestAttempts (processWithRoboflow st apiUrl oracle buf mime rc init).2 =
        List.range' 1 j ∧
      backoffDelays (processWithRoboflow st apiUrl oracle buf mime rc init).2 =
        (List.range' 1 d).map (fun i => init * 2 ^ (i - 1)) := by
  obtain ⟨j, d, hj, hd, hreq, hdel⟩ := retryFrom_shape st apiUrl
    ("data:" ++ mime ++ ";base64," ++ b64encode buf) oracle init rc 1 none
  refine ⟨j, d, hj, hd, ?_, ?_⟩
  · rw [processWithRoboflow]
    dsimp only
    rw [requestAttempts_append, requestAttempts_debugLog, List.nil_append]
    exact hreq
  · rw [processWithRoboflow]
    dsimp only
    rw [backoffDelays_append, backoffDelays_debugLog, List.nil_append]
    exact hdel

/-- C1: For every `retryCount ≥ 1`, `processWithRoboflow` performs at most
`retryCount` sequential requests to the vendor API (the attempt numbers in
the trace are `1, 2, ...`), and the backoff delay scheduled after failed
attempt `i` — the `(i-1)`-th delay of the trace, delays and attempts being
in lockstep — is `initialDelayMs * 2^(i-1)`; the loop therefore terminates
after a bounded number of attempts (the trace is finite by construction). -/
theorem retry_loop_bounded_with_exponential_backoff
    (st : ServiceState) (apiUrl : String) (oracle : Nat → AxiosOutcome)
    (buf : List Nat) (mime : String) (rc init : Nat) (_hrc : 1 ≤ rc) :
    (requestAttempts
        (processWithRoboflow st apiUrl oracle buf mime rc init).2).length ≤ rc ∧
    requestAttempts (processWithRoboflow st apiUrl oracle buf mime rc init).2 =
      List.range' 1 (requestAttempts
        (processWithRoboflow st apiUrl oracle buf mime rc init).2).length ∧
    backoffDelays (processWithRoboflow st apiUrl oracle buf mime rc init).2 =
      (List.range (backoffDelays
          (processWithRoboflow st apiUrl oracle buf mime rc init).2).length).map
        (fun i => init * 2 ^ i) ∧
    (backoffDelays
        (processWithRoboflow st apiUrl oracle buf mime rc init).2).length ≤
      (requestAttempts
        (processWithRoboflow st apiUrl oracle buf mime rc init).2).length := by
  obtain ⟨j, d, hj, hd, hreq, hdel⟩ :=
    processWithRoboflow_shape st apiUrl oracle buf mime rc init
  have hlenr : (requestAttempts
      (processWithRoboflow st apiUrl oracle buf mime rc init).2).length = j := by
    rw [hreq, List.length_range']
  have hlend : (backoffDelays
      (processWithRoboflow st apiUrl oracle buf mime rc init).2).length = d := by
    rw [hdel, List.length_map, List.length_range']
  refine ⟨?_, ?_, ?_, ?_⟩
  · rw [hlenr]; exact hj
  · rw [hlenr, hreq]
  · rw [hlend, hdel, List.range'_eq_map_range, List.map_map]
    apply List.map_congr_left
    intro i _
    simp [Function.comp, Nat.add_sub_cancel_left]
  · rw [hlenr, hlend]; omega

/-- Every event of the retry loop's trace is a vendor request with the
fixed configuration, a backoff sleep, or a debug-logger filesystem
operation. -/
theorem retryFrom_events (st : ServiceState) (apiUrl dataUrl : String)
    (oracle : Nat → AxiosOutcome) (init : Nat) :
    ∀ (remaining attempt : Nat) (le : Option ServiceError) (ev : Effect),
      ev ∈ (retryFrom st apiUrl dataUrl oracle init attempt remaining le).2 →
      (∃ a, ev = .request a ⟨apiUrl, dataUrl, 60000⟩) ∨
      (∃ ms, ev = .delay ms) ∨ ev ∈ debugLog st := by
  intro remaining
  induction remaining with
  | zero =>
      intro attempt le ev h
      cases h
  | succ n ih =>
      intro attempt le ev h
      rcases hmk : makeRequest st apiUrl dataUrl oracle attempt with ⟨res, tr⟩
      have htr : tr = Effect.request attempt ⟨apiUrl, dataUrl, 60000⟩ ::
          debugLog st := by
        have h' := makeRequest_trace st apiUrl dataUrl oracle attempt
        rw [hmk] at h'; exact h'
      simp only [retryFrom] at h
      rw [hmk] at h
      cases res with
      | ok data =>
          dsimp only at h
          rw [htr] at h
          rcases List.mem_cons.mp h with h1 | h1
          · exact Or.inl ⟨attempt, h1⟩
          · exact Or.inr (Or.inr h1)
      | error e =>
          have hresp := makeRequest_error_response st apiUrl dataUrl oracle
            attempt e (by rw [hmk])
          have habort := shouldAbortRetry_of_none e hresp
          dsimp only at h
          rw [if_neg (by simp [habort])] at h
          simp only [List.append_assoc, List.mem_append,
            List.mem_singleton] at h
          rcases h with h1 | h1 | h1
          · rw [htr] at h1
            rcases List.mem_cons.mp h1 with h2 | h2
            · exact Or.inl ⟨attempt, h2⟩
            · exact Or.inr (Or.inr h2)
          · exact Or.inr (Or.inl ⟨init * 2 ^ (attempt - 1), h1⟩)
          · exact ih (attempt + 1) (some e) ev h1

/-- Every event of a `processWithRoboflow` trace is a request carrying the
data URL built from the buffer, a sleep, or a logger filesystem
operation. -/
theorem processWithRoboflow_events (st : ServiceState) (apiUrl : String)
    (oracle : Nat → AxiosOutcome) (buf : List Nat) (mime : String)
    (rc init : Nat) (ev : Effect)
    (h : ev ∈ (processWithRoboflow st apiUrl oracle buf mime rc init).2) :
    (∃ a, ev = .request a
        ⟨apiUrl, "data:" ++ mime ++ ";base64," ++ b64encode buf, 60000⟩) ∨
    (∃ ms, ev = .delay ms) ∨ ev ∈ debugLog st := by
  rw [processWithRoboflow] at h
  dsimp only at h
  rcases List.mem_append.mp h with h1 | h1
  · exact Or.inr (Or.inr h1)
  · exact retryFrom_events st apiUrl _ oracle init rc 1 none ev h1

/-- Witness for C1 at the defaults `retryCount = 3`,
`initialDelayMs = 1000`, under an always-failing oracle. -/
theorem retry_loop_bounded_witness :
    1 ≤ 3 ∧
    (requestAttempts
        (processWithRoboflow stTest "u" oracleFail [] "image/png" 3 1000).2).length
      ≤ 3 :=
  ⟨by decide,
   (retry_loop_bounded_with_exponential_backoff stTest "u" oracleFail []
      "image/png" 3 1000 (by decide)).1⟩

/-- C7: Every vendor API attempt is made with the same fixed per-attempt
timeout of 60000 ms; indeed the whole request record (URL, body, timeout)
is identical across attempts, and the trace contains no cancellation
events — request, sleep and logging effects are the only ones the request
path produces. -/
theorem every_attempt_same_fixed_timeout (st : ServiceState) (apiUrl : String)
    (oracle : Nat → AxiosOutcome) (buf : List Nat) (mime : String)
    (rc init a : Nat) (req : HttpRequest)
    (h : Effect.request a req ∈
      (processWithRoboflow st apiUrl oracle buf mime rc init).2) :
    req.timeoutMs = 60000 ∧
    req = ⟨apiUrl, "data:" ++ mime ++ ";base64," ++ b64encode buf, 60000⟩ := by
  rcases processWithRoboflow_events st apiUrl oracle buf mime rc init _ h with
    ⟨a', h1⟩ | ⟨ms, h1⟩ | h1
  · injection h1 with _ h2
    subst h2
    exact ⟨rfl, rfl⟩
  · cases h1
  · rcases debugLog_fs st _ h1 with h2 | h2 <;> cases h2

/-- Witness for C7: the single request of a one-attempt run carries the
60000 ms timeout. -/
theorem every_attempt_same_fixed_timeout_witness :
    Effect.request 1 reqTest ∈
      (processWithRoboflow stTest "u" oracleFail [] "image/png" 1 5).2 ∧
    reqTest.timeoutMs = 60000 :=
  ⟨by decide,
   (every_attempt_same_fixed_timeout stTest "u" oracleFail [] "image/png"
      1 5 1 reqTest (by decide)).1⟩

/-- When every attempt is answered with an HTTP status ≥ 400, the retry
loop consumes all its fuel: one request per remaining iteration. -/
theorem retryFrom_full_under_failure (st : ServiceState)
    (apiUrl dataUrl : String) (oracle : Nat → AxiosOutcome) (init : Nat)
    (hf : ∀ i, ∃ s resp, oracle i = .resolved s resp ∧ 400 ≤ s) :
    ∀ (remaining attempt : Nat) (le : Option ServiceError),
      (requestAttempts
        (retryFrom st apiUrl dataUrl oracle init attempt remaining le).2).length
        = remaining := by
  intro remaining
  induction remaining with
  | zero => intro attempt le; rfl
  | succ n ih =>
      intro attempt le
      obtain ⟨s, resp, ho, hs⟩ := hf attempt
      have hmk : makeRequest st apiUrl dataUrl oracle attempt =
          (.error { message := "HTTP " ++ toString s, response := none },
           [Effect.request attempt ⟨apiUrl, dataUrl, 60000⟩] ++ debugLog st) := by
        unfold makeRequest
        rw [ho]
        dsimp only
        rw [if_pos hs]
      simp only [retryFrom]
      rw [hmk]
      dsimp only
      rw [if_neg (by simp [shouldAbortRetry_of_none
        { message := "HTTP " ++ toString s, response := none } rfl])]
      simp only [requestAttempts_append, requestAttempts_debugLog,
        List.length_append, ih]
      simp [requestAttempts]
      omega

/-- C10: The no-retry branch for 4xx vendor responses is unreachable.
Every error `makeRequest` throws is a plain `Error` without a `response`
property — axios is configured with `validateStatus` always true, so HTTP
statuses never reject the promise — hence the condition
`error.response?.status >= 400 && < 500 && != 429` never holds, and every
failed attempt, including one answered with an HTTP 4xx status, is retried
up to the full attempt count. -/
theorem no_retry_on_4xx_branch_unreachable :
    (∀ (st : ServiceState) (apiUrl dataUrl : String)
        (oracle : Nat → AxiosOutcome) (attempt : Nat) (e : ServiceError),
      (makeRequest st apiUrl dataUrl oracle attempt).1 = .error e →
      e.response = none ∧ shouldAbortRetry e = false) ∧
    (∀ (st : ServiceState) (apiUrl : String) (oracle : Nat → AxiosOutcome)
        (buf : List Nat) (mime : String) (rc init : Nat),
      (∀ i, ∃ s, 400 ≤ s ∧ s < 500 ∧ s ≠ 429 ∧
        ∃ resp, oracle i = .resolved s resp) →
      (requestAttempts
        (processWithRoboflow st apiUrl oracle buf mime rc init).2).length
        = rc) := by
  constructor
  · intro st apiUrl dataUrl oracle attempt e h
    have hr := makeRequest_error_response st apiUrl dataUrl oracle attempt e h
    exact ⟨hr, shouldAbortRetry_of_none e hr⟩
  · intro st apiUrl oracle buf mime rc init hf
    have hf' : ∀ i, ∃ s resp, oracle i = .resolved s resp ∧ 400 ≤ s := by
      intro i
      obtain ⟨s, h1, _, _, resp, h4⟩ := hf i
      exact ⟨s, resp, h4, h1⟩
    rw [processWithRoboflow]
    dsimp only
    rw [requestAttempts_append, requestAttempts_debugLog, List.nil_append]
    exact retryFrom_full_under_failure st apiUrl _ oracle init hf' rc 1 none

/-- Witness for C10: three attempts all answered with HTTP 404 still make
all three requests. -/
theorem no_retry_on_4xx_branch_unreachable_witness :
    (requestAttempts
      (processWithRoboflow stTest "u" oracle404 [] "image/png" 3 1000).2).length
      = 3 :=
  no_retry_on_4xx_branch_unreachable.2 stTest "u" oracle404 [] "image/png"
    3 1000
    (fun _ => ⟨404, by decide, by decide, by decide,
      ⟨{ outputs := none, predictions := none }, rfl⟩⟩)

/-- With debug off, the Roboflow round (and its retries) performs no
filesystem operation. -/
theorem processWithRoboflow_fsOps (st : ServiceState) (apiUrl : String)
    (oracle : Nat → AxiosOutcome) (buf : List Nat) (mime : String)
    (rc init : Nat) (hd : st.debug = false) :
    fsOps (processWithRoboflow st apiUrl oracle buf mime rc init).2 = [] := by
  rw [fsOps, List.filter_eq_nil_iff]
  intro ev hev
  rcases processWithRoboflow_events st apiUrl oracle buf mime rc init ev hev
    with ⟨a, h1⟩ | ⟨ms, h1⟩ | h1
  · subst h1; simp
  · subst h1; simp
  · rw [debugLog_off st hd] at h1; cases h1

/-- With debug off, serving a detection request performs no filesystem
operation. -/
theorem detectDogsService_fsOps (st : ServiceState) (apiUrl : String)
    (oracle : Nat → AxiosOutcome) (nowMs : Nat) (ts : String)
    (file : FileObj) (hd : st.debug = false) :
    fsOps (detectDogsService st apiUrl oracle nowMs ts file).2.1 = [] := by
  have hdl : debugLog st = [] := debugLog_off st hd
  have hp := processWithRoboflow_fsOps st apiUrl oracle file.buffer
    file.mimetype 3 1000 hd
  unfold detectDogsService
  rcases hr : processWithRoboflow st apiUrl oracle file.buffer file.mimetype
    3 1000 with ⟨res, tr⟩
  rw [hr] at hp
  cases res with
  | ok resp =>
      dsimp only
      rw [fsOps_append, fsOps_append, hp]
      unfold extractDogImagesTrace
      rw [hdl]
      simp [fsOps]
  | error e =>
      dsimp only
      rw [fsOps_append, hp, hdl]
      rfl

/-- C6: Handling a request mutates no service state: the service's fields
(`debug`, `logsDir`) are `readonly`, assigned only in the constructor, and
come back unchanged from every request; and when the debug flag is false no
log-file operation (mkdir or append) appears in the trace of any
request. -/
theorem request_handling_frame (st : ServiceState) (apiUrl : String)
    (oracle : Nat → AxiosOutcome) (nowMs : Nat) (ts : String)
    (body : DetectDogsDto) :
    (controllerDetectDogs st apiUrl oracle nowMs ts body).2.2 = st ∧
    (st.debug = false →
      fsOps (controllerDetectDogs st apiUrl oracle nowMs ts body).2.1 = []) := by
  constructor
  · unfold controllerDetectDogs
    cases body.image with
    | none => rfl
    | some img =>
        dsimp only
        split
        · rfl
        · split
          · rfl
          · unfold detectDogsService
            dsimp only
            split <;> rfl
  · intro hd
    unfold controllerDetectDogs
    cases body.image with
    | none => rfl
    | some img =>
        dsimp only
        split
        · rfl
        · split
          · rfl
          · exact detectDogsService_fsOps st apiUrl oracle nowMs ts _ hd

/-- Witness for C6: a debug-off state comes back unchanged and produces an
empty filesystem trace. -/
theorem request_handling_frame_witness :
    (controllerDetectDogs stTest "u" oracleFail 0 "t"
      { image := some "data:image/png;base64," }).2.2 = stTest ∧
    fsOps (controllerDetectDogs stTest "u" oracleFail 0 "t"
      { image := some "data:image/png;base64," }).2.1 = [] :=
  ⟨(request_handling_frame stTest "u" oracleFail 0 "t"
      { image := some "data:image/png;base64," }).1,
   (request_handling_frame stTest "u" oracleFail 0 "t"
      { image := some "data:image/png;base64," }).2 (by decide)⟩

/-- The error message built in `detectDogs`'s catch block is never
empty. -/
theorem failedMsg_ne_empty (m : String) :
    "Failed to detect dogs: " ++ m ≠ "" := by
  intro h
  have hl := congrArg String.length h
  rw [String.length_append] at hl
  have h23 : ("Failed to detect dogs: " : String).length = 23 := rfl
  have h0 : ("" : String).length = 0 := rfl
  omega

/-- C8: The service method `detectDogs` is total over its error cases: it
is a function into `DetectionResult` (the embedding of a body whose
`try`/`catch` swallows every throw), and on failure it returns
`success = false`, an empty `detectedDogs` array and a non-empty error
string, while on success no error field is set. -/
theorem detectDogs_total_error_shape (st : ServiceState) (apiUrl : String)
    (oracle : Nat → AxiosOutcome) (nowMs : Nat) (ts : String)
    (file : FileObj) :
    ((detectDogsService st apiUrl oracle nowMs ts file).1.success = true →
      (detectDogsService st apiUrl oracle nowMs ts file).1.error = none) ∧
    ((detectDogsService st apiUrl oracle nowMs ts file).1.success = false →
      (detectDogsService st apiUrl oracle nowMs ts file).1.detectedDogs = [] ∧
      ∃ m, (detectDogsService st apiUrl oracle nowMs ts file).1.error = some m ∧
        m ≠ "") := by
  unfold detectDogsService
  rcases hr : processWithRoboflow st apiUrl oracle file.buffer file.mimetype
    3 1000 with ⟨res, tr⟩
  cases res with
  | ok resp =>
      refine ⟨fun _ => rfl, fun h => ?_⟩
      exact absurd h (by simp)
  | error e =>
      refine ⟨fun h => absurd h (by simp), fun _ => ?_⟩
      exact ⟨rfl, "Failed to detect dogs: " ++ e.message, rfl,
        failedMsg_ne_empty e.message⟩

/-- Witness for C8: under an always-failing oracle the concrete result has
the failure shape. -/
theorem detectDogs_total_error_shape_witness :
    (detectDogsService stTest "u" oracleFail 0 "t"
      ⟨[], "image/png"⟩).1.detectedDogs = [] ∧
    ∃ m, (detectDogsService stTest "u" oracleFail 0 "t"
      ⟨[], "image/png"⟩).1.error = some m ∧ m ≠ "" :=
  (detectDogs_total_error_shape stTest "u" oracleFail 0 "t"
    ⟨[], "image/png"⟩).2 (by decide)

/-- Under an oracle whose every attempt fails, the retry loop's result is
an error. -/
theorem retryFrom_error_under_failure (st : ServiceState)
    (apiUrl dataUrl : String) (oracle : Nat → AxiosOutcome) (init : Nat)
    (hf : ∀ i, attemptFails (oracle i)) :
    ∀ (remaining attempt : Nat) (le : Option ServiceError),
      ∃ e, (retryFrom st apiUrl dataUrl oracle init attempt remaining le).1
        = .error e := by
  intro remaining
  induction remaining with
  | zero => intro attempt le; exact ⟨finalError le, rfl⟩
  | succ n ih =>
      intro attempt le
      have hctor : ∃ e0, (makeRequest st apiUrl dataUrl oracle attempt).1
          = .error e0 := by
        have hfa := hf attempt
        unfold attemptFails at hfa
        unfold makeRequest
        cases ho : oracle attempt with
        | resolved s d =>
            rw [ho] at hfa
            dsimp only at hfa ⊢
            rw [if_pos hfa]
            exact ⟨_, rfl⟩
        | requestFailed msg => exact ⟨_, rfl⟩
      obtain ⟨e0, he0⟩ := hctor
      rcases hmk : makeRequest st apiUrl dataUrl oracle attempt with ⟨res, tr⟩
      rw [hmk] at he0
      dsimp only at he0
      subst he0
      have hresp := makeRequest_error_response st apiUrl dataUrl oracle
        attempt e0 (by rw [hmk])
      simp only [retryFrom]
      rw [hmk]
      dsimp only
      rw [if_neg (by simp [shouldAbortRetry_of_none e0 hresp])]
      exact ih (attempt + 1) (some e0)

/-- C3: For every well-formed request, when the vendor API call fails on
all retry attempts the upstream failure is surfaced to the HTTP caller as
a failing response — `success = false` with a non-empty error message —
rather than being reported as a successful detection. -/
theorem upstream_failure_surfaced (st : ServiceState) (apiUrl : String)
    (oracle : Nat → AxiosOutcome) (nowMs : Nat) (ts : String)
    (img mime data : String)
    (hmatch : matchDataUrl img = some (mime, data))
    (hfail : ∀ i, attemptFails (oracle i)) :
    ∃ res : DetectionResult,
      (controllerDetectDogs st apiUrl oracle nowMs ts ⟨some img⟩).1
        = .ok res ∧
      res.success = false ∧ res.detectedDogs = [] ∧
      ∃ m, res.error = some m ∧ m ≠ "" := by
  have hne : ¬(img = "") := by
    intro h; subst h; exact Option.noConfusion (hmatch ▸ rfl : (none : Option (String × String)) = some (mime, data))
  unfold controllerDetectDogs
  dsimp only
  rw [if_neg hne, hmatch]
  dsimp only
  obtain ⟨e, he⟩ := retryFrom_error_under_failure st apiUrl
    ("data:" ++ ("image/" ++ mime) ++ ";base64," ++ b64encode (b64decode data))
    oracle 1000 hfail 3 1 none
  unfold detectDogsService
  rcases hp : processWithRoboflow st apiUrl oracle (b64decode data)
      ("image/" ++ mime) 3 1000 with ⟨res0, tr0⟩
  have hres0 : res0 = .error e := by
    have : (processWithRoboflow st apiUrl oracle (b64decode data)
        ("image/" ++ mime) 3 1000).1 = .error e := by
      unfold processWithRoboflow
      dsimp only
      exact he
    rw [hp] at this
    exact this
  subst hres0
  dsimp only
  exact ⟨_, rfl, rfl, rfl,
    "Failed to detect dogs: " ++ e.message, rfl, failedMsg_ne_empty e.message⟩

/-- Witness for C3 at a concrete well-formed image and an always-failing
oracle. -/
theorem upstream_failure_surfaced_witness :
    ∃ res : DetectionResult,
      (controllerDetectDogs stTest "u" oracleFail 0 "t"
        ⟨some "data:image/png;base64,"⟩).1 = .ok res ∧
      res.success = false ∧ res.detectedDogs = [] ∧
      ∃ m, res.error = some m ∧ m ≠ "" :=
  upstream_failure_surfaced stTest "u" oracleFail 0 "t"
    "data:image/png;base64," "png" "" (by decide) (fun _ => True.intro)

/-! ## Correctness of the data-URL matcher -/

theorem dropLit_iff (p : List Char) :
    ∀ (s r : List Char), dropLit p s = some r ↔ s = p ++ r := by
  induction p with
  | nil =>
      intro s r
      simp [dropLit, eq_comm]
  | cons c cs ih =>
      intro s r
      cases s with
      | nil =>
          simp [dropLit]
      | cons d ds =>
          simp only [dropLit, List.cons_append, List.cons.injEq]
          by_cases hcd : c = d
          · subst hcd
            rw [if_pos rfl, ih ds r]
            simp
          · rw [if_neg hcd]
            constructor
            · intro h; cases h
            · rintro ⟨h1, _⟩; exact absurd h1.symm hcd

theorem takeLetters_spec : ∀ s : List Char,
    (takeLetters s).1 ++ (takeLetters s).2 = s ∧
    (takeLetters s).1.all isAsciiLetter = true ∧
    ((takeLetters s).2 = [] ∨
      ∃ c cs, (takeLetters s).2 = c :: cs ∧ isAsciiLetter c = false) := by
  intro s
  induction s with
  | nil => exact ⟨rfl, rfl, Or.inl rfl⟩
  | cons c cs ih =>
      by_cases hc : isAsciiLetter c = true
      · obtain ⟨h1, h2, h3⟩ := ih
        refine ⟨?_, ?_, ?_⟩ <;>
          simp only [takeLetters, if_pos hc]
        · simpa using h1
        · simpa [hc] using h2
        · exact h3
      · refine ⟨?_, ?_, ?_⟩ <;>
          simp only [takeLetters, if_neg hc]
        · rfl
        · rfl
        · exact Or.inr ⟨c, cs, rfl, by simpa using hc⟩

theorem takeLetters_complete : ∀ (m r : List Char),
    m.all isAsciiLetter = true →
    (r = [] ∨ ∃ c cs, r = c :: cs ∧ isAsciiLetter c = false) →
    takeLetters (m ++ r) = (m, r) := by
  intro m
  induction m with
  | nil =>
      intro r _ hr
      rcases hr with h | ⟨c, cs, hc, hcl⟩
      · subst h; rfl
      · subst hc
        simp [takeLetters, hcl]
  | cons c m ih =>
      intro r hall hr
      simp only [List.all_cons, Bool.and_eq_true] at hall
      simp only [List.cons_append, takeLetters, if_pos hall.1,
        List.append_eq, ih r hall.2 hr]

theorem matchDataUrl_sound (s mime data : String)
    (h : matchDataUrl s = some (mime, data)) :
    s = "data:image/" ++ mime ++ ";base64," ++ data ∧
    mime.toList.all isAsciiLetter = true ∧
    data.toList.all (fun c => c ≠ '"') = true := by
  unfold matchDataUrl at h
  cases h1 : dropLit "data:image/".toList s.toList with
  | none => rw [h1] at h; cases h
  | some r1 =>
      rw [h1] at h
      dsimp only at h
      cases h2 : dropLit ";base64,".toList (takeLetters r1).2 with
      | none => rw [h2] at h; cases h
      | some dataL =>
          rw [h2] at h
          dsimp only at h
          split at h
          case isTrue hall =>
            injection h with h'
            injection h' with hm hd
            obtain ⟨t1, t2, _⟩ := takeLetters_spec r1
            have hs : s.toList = "data:image/".toList ++ r1 :=
              (dropLit_iff _ _ _).mp h1
            have hr2 : (takeLetters r1).2 = ";base64,".toList ++ dataL :=
              (dropLit_iff _ _ _).mp h2
            have hmL : mime.toList = (takeLetters r1).1 := by
              rw [← hm]; rfl
            have hdL : data.toList = dataL := by
              rw [← hd]; rfl
            refine ⟨?_, ?_, ?_⟩
            · apply String.ext
              show s.toList =
                ("data:image/" ++ mime ++ ";base64," ++ data).toList
              rw [show ("data:image/" ++ mime ++ ";base64," ++ data).toList
                  = "data:image/".toList ++ (mime.toList ++
                    (";base64,".toList ++ data.toList)) by
                simp [String.toList, String.data_append]]
              rw [hs, hmL, hdL, ← hr2, t1]
            · rw [hmL]; exact t2
            · rw [hdL]; exact hall
          case isFalse => cases h

theorem matchDataUrl_complete (mime data : String)
    (hm : mime.toList.all isAsciiLetter = true)
    (hd : data.toList.all (fun c => c ≠ '"') = true) :
    matchDataUrl ("data:image/" ++ mime ++ ";base64," ++ data)
      = some (mime, data) := by
  have h1 : ("data:image/" ++ mime ++ ";base64," ++ data).toList
      = "data:image/".toList ++ (mime.toList ++
        (";base64,".toList ++ data.toList)) := by
    simp [String.toList, String.data_append]
  have h2 : takeLetters (mime.toList ++ (";base64,".toList ++ data.toList))
      = (mime.toList, ";base64,".toList ++ data.toList) :=
    takeLetters_complete mime.toList _ hm
      (Or.inr ⟨';', "base64,".toList ++ data.toList, rfl, by decide⟩)
  unfold matchDataUrl
  rw [h1, (dropLit_iff "data:image/".toList _ _).mpr rfl]
  dsimp only
  rw [h2]
  dsimp only
  rw [(dropLit_iff ";base64,".toList _ _).mpr rfl]
  dsimp only
  rw [if_pos hd]
  rfl

/-- A matching image is accepted: the controller hands the decoded buffer
and derived mimetype to the service and returns its result. -/
theorem controller_accepts (st : ServiceState) (apiUrl : String)
    (oracle : Nat → AxiosOutcome) (nowMs : Nat) (ts : String)
    (body : DetectDogsDto) (img mime data : String)
    (hbi : body.image = some img)
    (hmatch : matchDataUrl img = some (mime, data)) :
    (controllerDetectDogs st apiUrl oracle nowMs ts body).1 =
      .ok (detectDogsService st apiUrl oracle nowMs ts
        ⟨b64decode data, "image/" ++ mime⟩).1 := by
  have hne : ¬(img = "") := by
    intro h
    subst h
    exact Option.noConfusion
      (hmatch ▸ rfl : (none : Option (String × String)) = some (mime, data))
  unfold controllerDetectDogs
  rw [hbi]
  dsimp only
  rw [if_neg hne, hmatch]

/-- An image that the controller rejects with 400: the regex did not
match, so no well-formed decomposition exists. -/
theorem not_wellFormed_of_match_none (img : String)
    (hm : matchDataUrl img = none) : ¬ WellFormedImage img := by
  rintro ⟨mime, data, heq, h1, h2⟩
  rw [heq, matchDataUrl_complete mime data h1 h2] at hm
  cases hm

/-- C2: The `detect-dogs` endpoint fails with HTTP 400
(`BadRequestException`) if and only if the input is malformed: the `image`
field is absent or empty, or the image string does not match the base64
data-URL pattern `data:image/<letters>;base64,<data>`; any string matching
that pattern is accepted and forwarded to the service. -/
theorem badRequest_iff_malformed (st : ServiceState) (apiUrl : String)
    (oracle : Nat → AxiosOutcome) (nowMs : Nat) (ts : String)
    (body : DetectDogsDto) :
    ((∃ msg, (controllerDetectDogs st apiUrl oracle nowMs ts body).1
        = .badRequest msg) ↔
      (body.image = none ∨ body.image = some "" ∨
        ∃ img, body.image = some img ∧ ¬ WellFormedImage img)) ∧
    (∀ img mime data, body.image = some img →
      img = "data:image/" ++ mime ++ ";base64," ++ data →
      mime.toList.all isAsciiLetter = true →
      data.toList.all (fun c => c ≠ '"') = true →
      (controllerDetectDogs st apiUrl oracle nowMs ts body).1 =
        .ok (detectDogsService st apiUrl oracle nowMs ts
          ⟨b64decode data, "image/" ++ mime⟩).1) := by
  constructor
  · cases hbi : body.image with
    | none =>
        constructor
        · intro _; exact Or.inl rfl
        · intro _
          refine ⟨"No image data provided", ?_⟩
          unfold controllerDetectDogs
          rw [hbi]
    | some img =>
        by_cases hemp : img = ""
        · constructor
          · intro _
            exact Or.inr (Or.inl (by rw [hemp]))
          · intro _
            refine ⟨"No image data provided", ?_⟩
            unfold controllerDetectDogs
            rw [hbi]
            dsimp only
            rw [if_pos hemp]
        · cases hm : matchDataUrl img with
          | none =>
              constructor
              · intro _
                exact Or.inr (Or.inr ⟨img, rfl,
                  not_wellFormed_of_match_none img hm⟩)
              · intro _
                refine ⟨"Invalid image format. Please provide a valid base64 encoded image.", ?_⟩
                unfold controllerDetectDogs
                rw [hbi]
                dsimp only
                rw [if_neg hemp, hm]
          | some md =>
              rcases md with ⟨mime, data⟩
              have hacc := controller_accepts st apiUrl oracle nowMs ts body
                img mime data hbi hm
              constructor
              · rintro ⟨msg, hbad⟩
                rw [hacc] at hbad
                cases hbad
              · rintro (h | h | ⟨img', hbi', hnwf⟩)
                · cases h
                · injection h with h'
                  exact absurd h' hemp
                · injection hbi' with h'
                  subst h'
                  obtain ⟨heq, h1, h2⟩ := matchDataUrl_sound img mime data hm
                  exact absurd ⟨mime, data, heq, h1, h2⟩ hnwf
  · intro img mime data hbi heq hmm hdd
    have hmatch := matchDataUrl_complete mime data hmm hdd
    rw [← heq] at hmatch
    exact controller_accepts st apiUrl oracle nowMs ts body img mime data
      hbi hmatch

/-- Witness for C2: a concrete matching image is accepted and forwarded. -/
theorem badRequest_iff_malformed_witness :
    (controllerDetectDogs stTest "u" oracleFail 0 "t"
      ⟨some "data:image/png;base64,AA=="⟩).1 =
      .ok (detectDogsService stTest "u" oracleFail 0 "t"
        ⟨b64decode "AA==", "image/png"⟩).1 :=
  (badRequest_iff_malformed stTest "u" oracleFail 0 "t"
      ⟨some "data:image/png;base64,AA=="⟩).2
    "data:image/png;base64,AA==" "png" "AA==" rfl (by decide) (by decide)
    (by decide)

/-! ## Base64 round trip -/

theorem sextetOf_sextetChar : ∀ n < 64, sextetOf (sextetChar n) = some n := by
  decide

theorem sextetOf_pad : sextetOf '=' = none := by decide

/-- Decoding a canonical encoding recovers the bytes. -/
theorem b64decodeL_encodeL (bs : List Nat) (h : ∀ b ∈ bs, b < 256) :
    sextetsToBytes ((b64encodeL bs).filterMap sextetOf) = bs := by
  induction bs using b64encodeL.induct with
  | case1 => rfl
  | case2 b1 =>
      have h1 : b1 < 256 := h b1 (by simp)
      rw [b64encodeL,
        List.filterMap_cons_some (sextetOf_sextetChar _ (by omega)),
        List.filterMap_cons_some (sextetOf_sextetChar _ (by omega)),
        List.filterMap_cons_none sextetOf_pad,
        List.filterMap_cons_none sextetOf_pad]
      show [b1 / 4 * 4 + b1 % 4 * 16 / 16] = [b1]
      congr 1
      omega
  | case3 b1 b2 =>
      have h1 : b1 < 256 := h b1 (by simp)
      have h2 : b2 < 256 := h b2 (by simp)
      rw [b64encodeL,
        List.filterMap_cons_some (sextetOf_sextetChar _ (by omega)),
        List.filterMap_cons_some (sextetOf_sextetChar _ (by omega)),
        List.filterMap_cons_some (sextetOf_sextetChar _ (by omega)),
        List.filterMap_cons_none sextetOf_pad]
      show [_, _] = [b1, b2]
      congr 1
      · omega
      · congr 1
        omega
  | case4 b1 b2 b3 rest ih =>
      have h1 : b1 < 256 := h b1 (by simp)
      have h2 : b2 < 256 := h b2 (by simp)
      have h3 : b3 < 256 := h b3 (by simp)
      have hrest : ∀ b ∈ rest, b < 256 := fun b hb =>
        h b (by simp [hb])
      rw [b64encodeL,
        List.filterMap_cons_some (sextetOf_sextetChar _ (by omega)),
        List.filterMap_cons_some (sextetOf_sextetChar _ (by omega)),
        List.filterMap_cons_some (sextetOf_sextetChar _ (by omega)),
        List.filterMap_cons_some (sextetOf_sextetChar _ (by omega))]
      rw [sextetsToBytes]
      rw [ih hrest]
      congr 1
      · omega
      · congr 1
        · omega
        · congr 1
          omega

/-- `Buffer.from(buffer.toString('base64'), 'base64')` is the identity on
byte buffers. -/
theorem b64decode_encode (bs : List Nat) (h : ∀ b ∈ bs, b < 256) :
    b64decode (b64encode bs) = bs := by
  unfold b64decode b64encode
  exact b64decodeL_encodeL bs h

theorem sextetChar_ne_quote (n : Nat) : sextetChar n ≠ '"' := by
  rcases Nat.lt_or_ge n 64 with h | h
  · revert h
    revert n
    decide
  · unfold sextetChar
    rw [List.getD_eq_default _ _ (by calc b64alphabet.length = 64 := by decide
                                   _ ≤ n := h)]
    decide

/-- A canonical base64 encoding never contains a double quote, so the
controller's regex accepts it as payload. -/
theorem b64encodeL_no_quote (bs : List Nat) :
    (b64encodeL bs).all (fun c => c ≠ '"') = true := by
  induction bs using b64encodeL.induct with
  | case1 => rfl
  | case2 b1 =>
      simp [b64encodeL, sextetChar_ne_quote]
  | case3 b1 b2 =>
      simp [b64encodeL, sextetChar_ne_quote]
  | case4 b1 b2 b3 rest ih =>
      have ih' : ∀ x ∈ b64encodeL rest, ¬ x = '"' := by
        intro x hx
        simpa using List.all_eq_true.mp ih x hx
      simp [b64encodeL, sextetChar_ne_quote]
      exact ih'

/-- Every fallback-log event is a debug-logger event. -/
theorem extractDogImagesTrace_sub (st : ServiceState) (nowMs : Nat)
    (ts : String) (r : RoboflowResponse) :
    ∀ e ∈ extractDogImagesTrace st nowMs ts r, e ∈ debugLog st := by
  intro e he
  unfold extractDogImagesTrace at he
  rcases List.mem_append.mp he with h | h
  · exact h
  · split at h
    · exact h
    · cases h

/-- Every vendor request of a full `detectDogs` service call carries the
data URL built from the file's buffer and mimetype, with the fixed
timeout. -/
theorem detectDogsService_request_events (st : ServiceState) (apiUrl : String)
    (oracle : Nat → AxiosOutcome) (nowMs : Nat) (ts : String) (file : FileObj)
    (a : Nat) (req : HttpRequest)
    (h : Effect.request a req ∈
      (detectDogsService st apiUrl oracle nowMs ts file).2.1) :
    req = ⟨apiUrl, "data:" ++ file.mimetype ++ ";base64," ++
      b64encode file.buffer, 60000⟩ := by
  have core : Effect.request a req ∈
      (processWithRoboflow st apiUrl oracle file.buffer file.mimetype
        3 1000).2 → req = ⟨apiUrl, "data:" ++ file.mimetype ++ ";base64," ++
      b64encode file.buffer, 60000⟩ := by
    intro hin
    rcases processWithRoboflow_events st apiUrl oracle file.buffer
      file.mimetype 3 1000 _ hin with ⟨a', h1⟩ | ⟨ms, h1⟩ | h1
    · injection h1
    · cases h1
    · rcases debugLog_fs st _ h1 with h2 | h2 <;> cases h2
  unfold detectDogsService at h
  rcases hp : processWithRoboflow st apiUrl oracle file.buffer file.mimetype
    3 1000 with ⟨res, tr⟩
  rw [hp] at h
  have htr : Effect.request a req ∈ tr → req = ⟨apiUrl,
      "data:" ++ file.mimetype ++ ";base64," ++ b64encode file.buffer,
      60000⟩ := by
    intro hin
    exact core (by rw [hp]; exact hin)
  cases res with
  | ok resp =>
      dsimp only at h
      rcases List.mem_append.mp h with h1 | h1
      · rcases List.mem_append.mp h1 with h2 | h2
        · exact htr h2
        · rcases debugLog_fs st _
            (extractDogImagesTrace_sub st nowMs ts resp _ h2) with h3 | h3 <;>
            cases h3
      · rcases debugLog_fs st _ h1 with h3 | h3 <;> cases h3
  | error e =>
      dsimp only at h
      rcases List.mem_append.mp h with h1 | h1
      · exact htr h1
      · rcases debugLog_fs st _ h1 with h3 | h3 <;> cases h3

/-- C5 counterexample: the endpoint accepts the image
`data:image/png;base64,ab` (the regex matches, payload `ab`), but the data
URL sent to the vendor carries payload `aQ==` — the decode/encode round
trip normalizes non-canonical base64 instead of preserving it. -/
theorem forward_unmodified_counterexample :
    matchDataUrl "data:image/png;base64,ab" = some ("png", "ab") ∧
    (controllerDetectDogs stTest "u" oracleFail 0 "t"
        ⟨some "data:image/png;base64,ab"⟩).2.1.head? =
      some (.request 1
        { url := "u", body := "data:image/png;base64,aQ==", timeoutMs := 60000 }) ∧
    "aQ==" ≠ "ab" := by
  refine ⟨by decide, by decide, by decide⟩

/-- C5 (amended): the forwarded payload is the canonical re-encoding of
the decoded bytes; when the client supplies a canonical base64 payload
(the encoding of some byte sequence) the image is forwarded unmodified —
every vendor request of the run carries exactly the supplied data URL. -/
theorem forward_unmodified_for_canonical_base64 (st : ServiceState)
    (apiUrl : String) (oracle : Nat → AxiosOutcome) (nowMs : Nat)
    (ts : String) (mime : String) (bs : List Nat)
    (hm : mime.toList.all isAsciiLetter = true)
    (hb : ∀ b ∈ bs, b < 256) :
    ∀ (a : Nat) (req : HttpRequest), Effect.request a req ∈
      (controllerDetectDogs st apiUrl oracle nowMs ts
        ⟨some ("data:image/" ++ mime ++ ";base64," ++ b64encode bs)⟩).2.1 →
      req.body = "data:image/" ++ mime ++ ";base64," ++ b64encode bs := by
  intro a req h
  have hmatch : matchDataUrl ("data:image/" ++ mime ++ ";base64," ++
      b64encode bs) = some (mime, b64encode bs) :=
    matchDataUrl_complete mime (b64encode bs) hm (b64encodeL_no_quote bs)
  have hne : ¬("data:image/" ++ mime ++ ";base64," ++ b64encode bs = "") := by
    intro he
    rw [he] at hmatch
    have h0 : matchDataUrl "" = (none : Option (String × String)) := rfl
    rw [h0] at hmatch
    exact Option.noConfusion hmatch
  unfold controllerDetectDogs at h
  dsimp only at h
  rw [if_neg hne, hmatch] at h
  dsimp only at h
  have hreq := detectDogsService_request_events st apiUrl oracle nowMs ts
    ⟨b64decode (b64encode bs), "image/" ++ mime⟩ a req h
  rw [hreq]
  show "data:" ++ ("image/" ++ mime) ++ ";base64," ++
      b64encode (b64decode (b64encode bs))
    = "data:image/" ++ mime ++ ";base64," ++ b64encode bs
  rw [b64decode_encode bs hb]
  have hpre : "data:" ++ ("image/" ++ mime) = "data:image/" ++ mime := by
    apply String.ext
    show ("data:" ++ ("image/" ++ mime)).data = ("data:image/" ++ mime).data
    rw [String.data_append, String.data_append, String.data_append,
      ← List.append_assoc]
    rfl
  rw [hpre]

/-- Witness for C5's amended theorem: the canonical payload `aQ==`
(encoding of byte `0x69`) is forwarded verbatim. -/
theorem forward_unmodified_for_canonical_base64_witness :
    Effect.request 1
        { url := "u", body := "data:image/png;base64,aQ==",
          timeoutMs := 60000 } ∈
      (controllerDetectDogs stTest "u" oracleFail 0 "t"
        ⟨some ("data:image/" ++ "png" ++ ";base64," ++
          b64encode [105])⟩).2.1 ∧
    ({ url := "u", body := "data:image/png;base64,aQ==",
        timeoutMs := 60000 } : HttpRequest).body =
      "data:image/" ++ "png" ++ ";base64," ++ b64encode [105] :=
  ⟨by decide,
   forward_unmodified_for_canonical_base64 stTest "u" oracleFail 0 "t"
     "png" [105] (by decide) (by decide) 1 _ (by decide)⟩

/-! ## Normalization lemmas -/

theorem jsOrRat_zero (a : Rat) : jsOrRat a 0 = a := by
  unfold jsOrRat
  by_cases h : a = 0
  · rw [if_pos h, h]
  · rw [if_neg h]

theorem jsOrRat_of_ne (a b : Rat) (h : a ≠ 0) : jsOrRat a b = a := by
  unfold jsOrRat
  rw [if_neg h]

/-- A truthy image-data probe yields a non-empty string. -/
theorem predImageData_ne_empty (p : RoboflowPrediction) (s : String)
    (h : predImageData p = some s) : s ≠ "" := by
  unfold predImageData at h
  split_ifs at h with h1 h2 h3
  · cases hc : p.cropImage with
    | none => rw [hc] at h1; exact absurd h1 (by decide)
    | some t =>
        rw [hc] at h h1
        injection h with h'
        subst h'
        simpa [truthyOpt] using h1
  · cases hc : p.cropsImages.headD none with
    | none => rw [hc] at h2; exact absurd h2 (by decide)
    | some t =>
        rw [hc] at h h2
        injection h with h'
        subst h'
        simpa [truthyOpt] using h2
  · cases hc : p.image with
    | none => rw [hc] at h3; exact absurd h3 (by decide)
    | some t =>
        rw [hc] at h h3
        injection h with h'
        subst h'
        simpa [truthyOpt] using h3

/-- The source filter implies the two claim-side conditions it shares. -/
theorem keepPrediction_parts (p : RoboflowPrediction)
    (h : keepPrediction p = true) :
    (jsToLower p.«class» == "dog") = true ∧ p.confidence > 1/2 := by
  unfold keepPrediction at h
  simp only [Bool.and_eq_true, decide_eq_true_eq] at h
  exact ⟨h.1.2, h.2⟩

/-- A prediction the source filter drops is also dropped by the claim's
filter: an empty class never lowers to "dog". -/
theorem claimKeep_of_not_keep (p : RoboflowPrediction)
    (h : keepPrediction p = false) : claimKeepPrediction p = false := by
  unfold keepPrediction at h
  unfold claimKeepPrediction
  by_cases hcl : p.«class» = ""
  · have hl : (jsToLower p.«class» == "dog") = false := by
      rw [hcl]
      decide
    simp [hl]
  · simp only [Bool.and_eq_false_iff, decide_eq_false_iff_not] at h
    rcases h with (h | h) | h
    · exact absurd hcl (by simpa using h)
    · simp [h]
    · simp only [Bool.and_eq_false_iff, decide_eq_false_iff_not]
      left; right; exact h

/-- The source filter keeps a prediction with a truthy image probe exactly
when the claim's filter keeps it. -/
theorem claimKeep_of_keep (p : RoboflowPrediction)
    (h : keepPrediction p = true) :
    claimKeepPrediction p = (predImageData p).isSome := by
  obtain ⟨h1, h2⟩ := keepPrediction_parts p h
  unfold claimKeepPrediction
  rw [h1, decide_eq_true h2]
  simp

/-- Every dog of the crop pass has default confidence 1 and a zero
bounding box, and takes its image data from a kept base64 crop. -/
theorem dogsFromCrops_mem (nowMs : Nat) (ts : String) (r : RoboflowResponse)
    (d : DetectedDog) (h : d ∈ dogsFromCrops nowMs ts r) :
    d.confidence = 1 ∧ d.bbox = ⟨0, 0, 0, 0⟩ ∧
    ∃ c ∈ cropsOf r, keepCrop c = true ∧ d.imageData = c.value := by
  unfold dogsFromCrops at h
  rcases List.mem_map.mp h with ⟨⟨i, c⟩, hmem, heq⟩
  have hc : c ∈ (cropsOf r).filter keepCrop := by
    obtain ⟨hi, hceq⟩ := List.mem_enum hmem
    rw [hceq]
    exact List.getElem_mem hi
  obtain ⟨hcin, hkeep⟩ := List.mem_filter.mp hc
  rw [← heq]
  exact ⟨rfl, rfl, c, hcin, hkeep, rfl⟩

/-- Every dog of the predictions fallback comes from a kept prediction,
with the `||`-defaulted confidence and bounding box and the probed image
data. -/
theorem dogsFromPredictions_mem (nowMs : Nat) (ts : String)
    (r : RoboflowResponse) (d : DetectedDog)
    (h : d ∈ dogsFromPredictions nowMs ts r) :
    ∃ p ∈ r.predictions.getD [], keepPrediction p = true ∧
      d.confidence = jsOrRat p.confidence 1 ∧
      d.bbox = ⟨jsOrRat p.x 0, jsOrRat p.y 0, jsOrRat p.width 0,
        jsOrRat p.height 0⟩ ∧
      d.imageData = predImageData p := by
  unfold dogsFromPredictions at h
  cases hp : r.predictions with
  | none => rw [hp] at h; cases h
  | some preds =>
      rw [hp] at h
      rcases List.mem_map.mp h with ⟨⟨i, q⟩, hmem, heq⟩
      have hq : q ∈ (preds.filter keepPrediction).filterMap probePair := by
        obtain ⟨hi, hqeq⟩ := List.mem_enum hmem
        rw [hqeq]
        exact List.getElem_mem hi
      rcases List.mem_filterMap.mp hq with ⟨p, hpin, hpeq⟩
      unfold probePair at hpeq
      rcases Option.map_eq_some'.mp hpeq with ⟨img, hfil, hqeq2⟩
      obtain ⟨himg, _⟩ := Option.filter_eq_some.mp hfil
      obtain ⟨hpin2, hpkeep⟩ := List.mem_filter.mp hpin
      refine ⟨p, by simpa using hpin2, hpkeep, ?_, ?_, ?_⟩ <;>
        rw [← heq, ← hqeq2]
      · rfl
      · rfl
      · show some img = predImageData p
        exact (Option.mem_def.mp himg).symm

/-- C4 counterexample: a response with one base64 dynamic crop and an
empty predictions array yields a dog whose confidence (1.0) and bounding
box ((0,0,0,0)) correspond to no vendor detection — crops carry neither. -/
theorem bbox_confidence_passthrough_counterexample :
    ¬ ∀ d ∈ extractDogImages 0 "t" cropOnlyResponse,
        ∃ p ∈ cropOnlyResponse.predictions.getD [],
          d.confidence = p.confidence ∧
          d.bbox = ⟨p.x, p.y, p.width, p.height⟩ := by
  decide

/-- C4 (amended): dogs extracted from the predictions fallback carry the
bounding box (x, y, width, height) and confidence of the corresponding
vendor prediction; dogs extracted from dynamic-crop entries carry the
hard-coded default confidence 1.0 and zero bounding box, since crops
provide neither, together with the crop's image data. -/
theorem bbox_confidence_passthrough_amended (nowMs : Nat) (ts : String)
    (r : RoboflowResponse) :
    ∀ d ∈ extractDogImages nowMs ts r,
      (d.confidence = 1 ∧ d.bbox = ⟨0, 0, 0, 0⟩ ∧
        ∃ c ∈ cropsOf r, keepCrop c = true ∧ d.imageData = c.value) ∨
      (∃ p ∈ r.predictions.getD [], keepPrediction p = true ∧
        d.confidence = p.confidence ∧
        d.bbox = ⟨p.x, p.y, p.width, p.height⟩ ∧
        d.imageData = predImageData p) := by
  intro d hd
  unfold extractDogImages at hd
  by_cases hc : (dogsFromCrops nowMs ts r).length = 0
  · rw [if_pos hc] at hd
    right
    obtain ⟨p, hp, hk, hconf, hbox, him⟩ :=
      dogsFromPredictions_mem nowMs ts r d hd
    refine ⟨p, hp, hk, ?_, ?_, him⟩
    · rw [hconf]
      apply jsOrRat_of_ne
      obtain ⟨_, h2⟩ := keepPrediction_parts p hk
      intro h0
      rw [h0] at h2
      norm_num at h2
    · rw [hbox]
      simp [jsOrRat_zero]
  · rw [if_neg hc] at hd
    left
    exact dogsFromCrops_mem nowMs ts r d hd

/-- Witness for C4's amended theorem at the crop-only fixture. -/
theorem bbox_confidence_passthrough_amended_witness :
    mkCropDog 0 "t" 0 cropFixture ∈ extractDogImages 0 "t" cropOnlyResponse ∧
    (((mkCropDog 0 "t" 0 cropFixture).confidence = 1 ∧
        (mkCropDog 0 "t" 0 cropFixture).bbox = ⟨0, 0, 0, 0⟩ ∧
        ∃ c ∈ cropsOf cropOnlyResponse, keepCrop c = true ∧
          (mkCropDog 0 "t" 0 cropFixture).imageData = c.value) ∨
      (∃ p ∈ cropOnlyResponse.predictions.getD [],
        keepPrediction p = true ∧
        (mkCropDog 0 "t" 0 cropFixture).confidence = p.confidence ∧
        (mkCropDog 0 "t" 0 cropFixture).bbox =
          ⟨p.x, p.y, p.width, p.height⟩ ∧
        (mkCropDog 0 "t" 0 cropFixture).imageData = predImageData p)) :=
  ⟨by decide,
   bbox_confidence_passthrough_amended 0 "t" cropOnlyResponse
     (mkCropDog 0 "t" 0 cropFixture) (by decide)⟩

/-- The image-data list of the fallback's kept pairs equals the probe over
the claim's filter: the source's two-stage filter (dog filter, then truthy
image probe) keeps exactly the predictions the claim describes. -/
theorem predPairs_spec : ∀ preds : List RoboflowPrediction,
    (((preds.filter keepPrediction).filterMap probePair).map
      (fun q : RoboflowPrediction × String => some q.2)) =
    (preds.filter claimKeepPrediction).map predImageData := by
  intro preds
  induction preds with
  | nil => rfl
  | cons p t ih =>
      by_cases hk : keepPrediction p = true
      · rw [List.filter_cons_of_pos hk]
        cases hpi : predImageData p with
        | none =>
            have hck : claimKeepPrediction p = false := by
              rw [claimKeep_of_keep p hk, hpi]
              rfl
            have hnone : probePair p = none := by
              unfold probePair
              rw [hpi]
              rfl
            rw [List.filter_cons_of_neg (by simp [hck]),
              List.filterMap_cons_none hnone]
            exact ih
        | some s =>
            have hs : s ≠ "" := predImageData_ne_empty p s hpi
            have hck : claimKeepPrediction p = true := by
              rw [claimKeep_of_keep p hk, hpi]
              rfl
            have hsome : probePair p = some (p, s) := by
              unfold probePair
              rw [hpi]
              simp [Option.filter, hs]
            rw [List.filter_cons_of_pos hck,
              List.filterMap_cons_some hsome]
            simp only [List.map_cons]
            rw [ih, hpi]
      · have hk' : keepPrediction p = false := by
          simpa using hk
        rw [List.filter_cons_of_neg (by simp [hk']),
          List.filter_cons_of_neg (by simp [claimKeep_of_not_keep p hk'])]
        exact ih

/-- C9: Normalization precedence — `extractDogImages` takes dogs from
base64 dynamic-crop entries first and consults the predictions array only
when zero dogs were obtained from crops; in that fallback, exactly the
predictions whose class equals "dog" case-insensitively, whose confidence
is strictly greater than 0.5, and which carry (truthy) image data are
included, in order. -/
theorem normalization_precedence (nowMs : Nat) (ts : String)
    (r : RoboflowResponse) :
    (dogsFromCrops nowMs ts r ≠ [] →
      extractDogImages nowMs ts r = dogsFromCrops nowMs ts r) ∧
    (dogsFromCrops nowMs ts r = [] →
      extractDogImages nowMs ts r = dogsFromPredictions nowMs ts r) ∧
    (∀ preds, r.predictions = some preds →
      (dogsFromPredictions nowMs ts r).map DetectedDog.imageData =
        (preds.filter claimKeepPrediction).map predImageData) := by
  refine ⟨?_, ?_, ?_⟩
  · intro h
    unfold extractDogImages
    rw [if_neg (by simpa [List.length_eq_zero] using h)]
  · intro h
    unfold extractDogImages
    rw [if_pos (by simp [h])]
  · intro preds hp
    unfold dogsFromPredictions
    rw [hp]
    rw [List.map_map]
    have hfun : (DetectedDog.imageData ∘
        fun q : Nat × (RoboflowPrediction × String) =>
          mkPredDog nowMs ts q.1 q.2.1 q.2.2) =
        ((fun q : RoboflowPrediction × String => some q.2) ∘ Prod.snd) := by
      funext q
      rfl
    rw [hfun, ← List.map_map, List.enum_map_snd]
    exact predPairs_spec preds

/-- Witness for C9 at the prediction-only fixture. -/
theorem normalization_precedence_witness :
    (dogsFromPredictions 0 "t" predOnlyResponse).map DetectedDog.imageData =
      ([predFixture].filter claimKeepPrediction).map predImageData :=
  (normalization_precedence 0 "t" predOnlyResponse).2.2 [predFixture] rfl

end DogDetection
